import Mathlib

/-!
Formal model of `parsers/AU_capacity.py`, a standalone script that loads the
OpenNEM facility registry (from a 7-day file cache, falling back to an HTTP
GET), sums generator capacity by market zone and fuel type, and prints the
result as JSON with sorted keys.

Every definition below is transcribed from the Python source.  Python dicts
are modelled as association lists (insertion order preserved, unique keys in
practice), Python `decimal.Decimal` values as rationals, and a dictionary key
access that can raise `KeyError` as an `Option`/`Except` value.  Numbers
flowing through CPython binary64 floats are modelled as exact rationals; the
one lossy float conversion in the script (`round(float(v), 2)` in `output`)
is modelled as exact half-even decimal rounding of the rational value.
-/

set_option autoImplicit false

/-- JSON values, as produced by `json.dumps`.  Numbers are modelled as
rationals. -/
inductive JValue where
  | null
  | str (s : String)
  | num (q : ℚ)
  | arr (items : List JValue)
  | obj (fields : List (String × JValue))

/-- Lookup in an association list modelling a Python dict: the value stored
at a key, or `none` when the access would raise `KeyError`. -/
def alookup {α : Type} : List (String × α) → String → Option α
  | [], _ => none
  | (k, v) :: rest, key => if k = key then some v else alookup rest key

/-- `PRICE_MAPPING_DICTIONARY` from the source: electricitymap zone keys to
OpenNEM region ids. -/
def PRICE_MAPPING_DICTIONARY : List (String × String) :=
  [("AUS-NSW", "NSW1"),
   ("AUS-QLD", "QLD1"),
   ("AUS-SA", "SA1"),
   ("AUS-TAS", "TAS1"),
   ("AUS-VIC", "VIC1"),
   ("AUS-WA", "WA1")]

/-- `zone_map`: the inversion `{v: k for k, v in PRICE_MAPPING_DICTIONARY.items()}`. -/
def zone_map : List (String × String) :=
  PRICE_MAPPING_DICTIONARY.map (fun p => (p.2, p.1))

/-- `STATE_BOUNDING_BOXES` from the source (note the extra `NT1` entry,
which has no zone). -/
def STATE_BOUNDING_BOXES : List (String × List (List ℚ)) :=
  [("NSW1", [[148.2695, -36.4196], [149.9044, -34.6395]]),
   ("NT1", [[128.5001, -26.4999], [138.5002, -10.4684]]),
   ("QLD1", [[137.5002, -29.6706], [154.0488, -8.7402]]),
   ("SA1", [[128.5001, -38.5706], [141.5001, -25.4999]]),
   ("TAS1", [[143.3372, -44.1413], [148.9845, -39.0715]]),
   ("VIC1", [[140.4671, -39.645], [150.4721, -33.4865]]),
   ("WA1", [[112.4194, -35.6379], [129.5001, -13.2236]])]

/-- Lookup into `STATE_BOUNDING_BOXES`. -/
def sbbLookup (zone : String) : Option (List (List ℚ)) :=
  alookup STATE_BOUNDING_BOXES zone

/-- `ZONE_BOILERPLATE` from the source: static metadata shared by all zones. -/
def ZONE_BOILERPLATE : List (String × JValue) :=
  [("contributors", JValue.arr
      [JValue.str "https://github.com/brandongalbraith",
       JValue.str "https://github.com/jarek",
       JValue.str "https://github.com/corradio",
       JValue.str "https://github.com/AnthonyBriggs"]),
   ("flag_file_name", JValue.str "au.png"),
   ("parsers", JValue.obj
      [("price", JValue.str "AU.fetch_price"),
       ("production", JValue.str "AU.fetch_production")]),
   ("timezone", JValue.null)]

/-- The single registry URL fetched by the script. -/
def facilityRegistryURL : String :=
  "https://data.opennem.org.au/facility/facility_registry.json"

/-- One DUID entry of `duid_data`: the value under `fuel_tech`
(`none` when the key is absent or maps to JSON null, exactly as the
`gen_info.get` call with a `None` default sees it) and the value under
`registered_capacity` (`none` when that key is absent). -/
structure GenInfo where
  fuel_tech : Option String
  registered_capacity : Option ℚ
deriving DecidableEq

/-- One facility record of the registry.  Each `Option` field is `none` when
the corresponding key path is missing, so that reading it models a
`KeyError`.  `location` holds latitude and longitude. -/
structure Facility where
  station_id : Option String
  status_state : Option String
  region_id : Option String
  duid_data : Option (List (String × GenInfo))
  location : Option ℚ × Option ℚ
deriving DecidableEq

/-- The mutable bounds kept by `OpenNEMZone.__init__`:
`[[sw_lon, sw_lat], [ne_lon, ne_lat]]`, each coordinate `None` initially. -/
structure BBox where
  swLon : Option ℚ
  swLat : Option ℚ
  neLon : Option ℚ
  neLat : Option ℚ
deriving DecidableEq

/-- The initial bounding box `[[None, None], [None, None]]`. -/
def BBox.empty : BBox := ⟨none, none, none, none⟩

/-- A capacity dictionary `defaultdict(decimal.Decimal)`: fuel type to
accumulated capacity, in first-insertion order. -/
abbrev CapMap : Type := List (String × ℚ)

/-- The `OpenNEMZone` object state. -/
structure OpenNEMZone where
  zone : String
  bounding_box : BBox
  capacity : CapMap

/-- `OpenNEMZone(zone)`. -/
def OpenNEMZone.init (zone : String) : OpenNEMZone :=
  ⟨zone, BBox.empty, []⟩

/-- Whether the first list has the second as an initial run. -/
def listHasStart : List Char → List Char → Bool
  | _, [] => true
  | [], _ :: _ => false
  | c :: cs, p :: ps => (c == p) && listHasStart cs ps

/-- Python `s.startswith(pre)`. -/
def pyStartswith (s pre : String) : Bool := listHasStart s.data pre.data

/-- The fuel type rewriting performed inline by `update_capacity`, applied in
source order: collapse names starting with "gas_" to "gas", rename
"battery_discharging" to "battery storage", collapse names starting with
"bioenergy_" to "biomass", rename "distillate" to "oil". -/
def normalizeFuel (g0 : String) : String :=
  let g1 := if pyStartswith g0 "gas_" then "gas" else g0
  let g2 := if g1 = "battery_discharging" then "battery storage" else g1
  let g3 := if pyStartswith g2 "bioenergy_" then "biomass" else g2
  if g3 = "distillate" then "oil" else g3

/-- The same rewriting stated as disjoint cases, the way the specification
describes it. -/
def claimNormalize (g : String) : String :=
  if pyStartswith g "gas_" then "gas"
  else if pyStartswith g "bioenergy_" then "biomass"
  else if g = "distillate" then "oil"
  else if g = "battery_discharging" then "battery storage"
  else g

/-- `self.capacity[gen_type] += amount` on a `defaultdict(Decimal)`:
update the existing entry in place, or append a fresh one (default `0`). -/
def addCap : CapMap → String → ℚ → CapMap
  | [], k, v => [(k, v)]
  | (k0, v0) :: rest, k, v =>
      if k0 = k then (k0, v0 + v) :: rest else (k0, v0) :: addCap rest k v

/-- Reading a `defaultdict(Decimal)` entry: stored value, or `0`. -/
def capLookup (m : CapMap) (k : String) : ℚ :=
  (alookup m k).getD 0

/-- `OpenNEMZone.update_capacity`: fold over the `duid_data` items.  An entry
without `fuel_tech` is skipped by the first `continue`; `battery_charging`
and `pumps` entries are skipped by the second `continue`; otherwise the
normalized fuel type is credited with `registered_capacity`, whose absent
key raises `KeyError` (modelled as `Except.error`). -/
def updateCapacity : CapMap → List (String × GenInfo) → Except String CapMap
  | m, [] => Except.ok m
  | m, (_, info) :: rest =>
      match info.fuel_tech with
      | none => updateCapacity m rest
      | some g =>
          if g = "battery_charging" ∨ g = "pumps" then
            updateCapacity m rest
          else
            match info.registered_capacity with
            | none => Except.error "KeyError: registered_capacity"
            | some q => updateCapacity (addCap m (normalizeFuel g) q) rest

/-- The latitude half of `OpenNEMZone.update_bounds`: widen `sw` down and
`ne` up when the coordinate is outside the current bounds or unset. -/
def updateBoundsLat (b : BBox) (lat : ℚ) : BBox :=
  let b1 :=
    match b.swLat with
    | none => { b with swLat := some lat }
    | some v => if lat < v then { b with swLat := some lat } else b
  match b1.neLat with
  | none => { b1 with neLat := some lat }
  | some v => if v < lat then { b1 with neLat := some lat } else b1

/-- The longitude half of `OpenNEMZone.update_bounds`. -/
def updateBoundsLon (b : BBox) (lon : ℚ) : BBox :=
  let b1 :=
    match b.swLon with
    | none => { b with swLon := some lon }
    | some v => if lon < v then { b with swLon := some lon } else b
  match b1.neLon with
  | none => { b1 with neLon := some lon }
  | some v => if v < lon then { b1 with neLon := some lon } else b1

/-- `OpenNEMZone.update_bounds(location_data)`: skip a `None` latitude or
longitude, otherwise widen the box.  This method is never called by the
script (the call site at line 74 is commented out); it is modelled because
the specification speaks of a bounding box computed from the facility
data. -/
def updateBounds (b : BBox) (loc : Option ℚ × Option ℚ) : BBox :=
  let b1 := match loc.1 with
    | none => b
    | some lat => updateBoundsLat b lat
  match loc.2 with
  | none => b1
  | some lon => updateBoundsLon b1 lon

/-- The bounding box `update_bounds` would compute for one zone: fold the
locations of the commissioned facilities of that zone, starting from the
empty box. -/
def computedZoneBBox (facs : List (String × Facility)) (zoneName : String) : BBox :=
  ((facs.filter (fun p =>
      decide (p.2.status_state = some "Commissioned" ∧ p.2.region_id = some zoneName))).map
    (fun p => p.2.location)).foldl updateBounds BBox.empty

/-- Floor of a rational, via floor division of numerator by denominator. -/
def ratFloor (x : ℚ) : ℤ := Int.fdiv x.num x.den

/-- Round a rational to the nearest integer, ties to the even integer
(the rounding used by CPython `round`). -/
def roundHalfEven (x : ℚ) : ℤ :=
  let f := ratFloor x
  let r := x - (f : ℚ)
  if r < 1 / 2 then f
  else if 1 / 2 < (r : ℚ) then f + 1
  else if f % 2 = 0 then f else f + 1

/-- `round(float(v), 2)` from `OpenNEMZone.output`, modelled as exact
half-even rounding of the rational value to 2 decimal places.  The
conversion of the `Decimal` sum to a binary64 float that CPython performs
first is not modelled (see the discussion of exactness in the results). -/
def pyRound2 (x : ℚ) : ℚ := ((roundHalfEven (x * 100) : ℚ)) / 100

/-- The `capacity` dictionary of `output`: each accumulated value rounded
to 2 decimal places. -/
def capacityJson (m : CapMap) : JValue :=
  JValue.obj (m.map (fun p => (p.1, JValue.num (pyRound2 p.2))))

/-- A static bounding box rendered as JSON. -/
def jbbStatic (bb : List (List ℚ)) : JValue :=
  JValue.arr (bb.map (fun row => JValue.arr (row.map JValue.num)))

/-- An optional coordinate rendered as JSON (`None` becomes `null`). -/
def joptNum : Option ℚ → JValue
  | none => JValue.null
  | some q => JValue.num q

/-- A mutable `BBox` rendered as JSON, the way `json.dumps` would print
`self.bounding_box`. -/
def jbbComputed (b : BBox) : JValue :=
  JValue.arr [JValue.arr [joptNum b.swLon, joptNum b.swLat],
              JValue.arr [joptNum b.neLon, joptNum b.neLat]]

/-- Store one key in a dict: replace the value of an existing key in place,
or append the pair at the end (Python dict assignment semantics). -/
def setKey : List (String × JValue) → String × JValue → List (String × JValue)
  | [], kv => [kv]
  | (k, v) :: rest, kv =>
      if k = kv.1 then (k, kv.2) :: rest else (k, v) :: setKey rest kv

/-- `dict.update`: store every pair of the second dict into the first. -/
def pyUpdate (d upd : List (String × JValue)) : List (String × JValue) :=
  upd.foldl setKey d

/-- `OpenNEMZone.output`: a dict holding the static bounding box of the
zone (`STATE_BOUNDING_BOXES[self.zone]`, a `KeyError` when absent, hence
the `Option`), the rounded capacity dict, and then `ZONE_BOILERPLATE`
merged in with `dict.update`. -/
def OpenNEMZone.output (z : OpenNEMZone) : Option (List (String × JValue)) :=
  (sbbLookup z.zone).map (fun bb =>
    pyUpdate [("bounding_box", jbbStatic bb), ("capacity", capacityJson z.capacity)]
      ZONE_BOILERPLATE)

/-- The `zones` dictionary of the script: region id to zone object. -/
abbrev ZMap : Type := List (String × OpenNEMZone)

/-- `zones = {zone: OpenNEMZone(zone) for zone in zone_map.keys()}`. -/
def initZones : ZMap :=
  zone_map.map (fun p => (p.1, OpenNEMZone.init p.1))

/-- Replace the zone object stored at a key (models the in-place mutation
of the object found by the `zones` lookup at the facility region id). -/
def zupdate : ZMap → String → OpenNEMZone → ZMap
  | [], _, _ => []
  | (k, z0) :: rest, key, z1 =>
      if k = key then (k, z1) :: rest else (k, z0) :: zupdate rest key z1

/-- The body of the main loop for one facility.  Key accesses happen in
source order: `duid_data` (evaluated in the `debug` argument at line 164
even with `DEBUG = False`), then the `state` key of `status` (line 165),
then on the commissioned branch `region_id` and the `zones` lookup (line
166), `station_id` (evaluated in the `debug` argument at line 70) and
`update_capacity` (line 71); on the other branch `region_id` is still
evaluated inside the `debug` argument at line 169.  Every failing access
is a `KeyError`. -/
def processFacility (zones : ZMap) (f : Facility) : Except String ZMap :=
  match f.duid_data with
  | none => Except.error "KeyError: duid_data"
  | some dd =>
    match f.status_state with
    | none => Except.error "KeyError: status.state"
    | some st =>
      if st = "Commissioned" then
        match f.region_id with
        | none => Except.error "KeyError: region_id"
        | some r =>
          match alookup zones r with
          | none => Except.error ("KeyError: zones[" ++ r ++ "]")
          | some z =>
            match f.station_id with
            | none => Except.error "KeyError: station_id"
            | some _ =>
              match updateCapacity z.capacity dd with
              | Except.error e => Except.error e
              | Except.ok c => Except.ok (zupdate zones r { z with capacity := c })
      else
        match f.region_id with
        | none => Except.error "KeyError: region_id"
        | some _ => Except.ok zones

/-- The main loop: fold `processFacility` over the registry items, stopping
at the first uncaught exception. -/
def processAll : ZMap → List (String × Facility) → Except String ZMap
  | zm, [] => Except.ok zm
  | zm, (_, f) :: rest =>
      match processFacility zm f with
      | Except.error e => Except.error e
      | Except.ok zm' => processAll zm' rest

/-- `zone_map[z.zone]`. -/
def zoneMapLookup (zone : String) : Option String :=
  alookup zone_map zone

/-- `json_zones = {zone_map[z.zone]: z.output() for z in zones.values()}`,
with `none` when a key access inside the comprehension raises. -/
def jsonZones : ZMap → Option (List (String × JValue))
  | [] => some []
  | (_, z) :: rest =>
      match zoneMapLookup z.zone with
      | none => none
      | some key =>
        match z.output with
        | none => none
        | some o => (jsonZones rest).map (fun l => (key, JValue.obj o) :: l)

/-- Recursively sort every object of a JSON tree by key: the transformation
`json.dumps(..., sort_keys=True)` applies while serializing. -/
def sortKeys : JValue → JValue
  | JValue.null => JValue.null
  | JValue.str s => JValue.str s
  | JValue.num q => JValue.num q
  | JValue.arr items => JValue.arr (items.attach.map (fun x => sortKeys x.1))
  | JValue.obj fields =>
      JValue.obj (((fields.attach.map (fun p => (p.1.1, sortKeys p.1.2))).mergeSort
        (fun a b => decide (a.1 ≤ b.1))))
decreasing_by
  · exact Nat.lt_of_lt_of_le (by simpa using List.sizeOf_lt_of_mem x.2) (by simp)
  · calc sizeOf p.1.2 < sizeOf p.1 := by cases p.1; simp
      _ < sizeOf (JValue.obj fields) :=
        Nat.lt_of_lt_of_le (by simpa using List.sizeOf_lt_of_mem p.2) (by simp)

/-- The text `json.dumps(json_zones, sort_keys=True, indent=4)` prints is
the rendering of this key-sorted tree. -/
def finalJson (zm : ZMap) : Option JValue :=
  (jsonZones zm).map (fun l => sortKeys (JValue.obj l))

/-- Adjacent-pairs ordering check on a list of keys. -/
def chainLeB : List String → Bool
  | [] => true
  | [_] => true
  | a :: b :: rest => (decide (a ≤ b)) && chainLeB (b :: rest)

/-- Every object of a JSON tree has its keys in nondecreasing order. -/
def keysSortedB : JValue → Bool
  | JValue.null => true
  | JValue.str _ => true
  | JValue.num _ => true
  | JValue.arr items => items.attach.all (fun x => keysSortedB x.1)
  | JValue.obj fields =>
      chainLeB (fields.map (fun p => p.1)) &&
        fields.attach.all (fun p => keysSortedB p.1.2)
decreasing_by
  · exact Nat.lt_of_lt_of_le (by simpa using List.sizeOf_lt_of_mem x.2) (by simp)
  · calc sizeOf p.1.2 < sizeOf p.1 := by cases p.1; simp
      _ < sizeOf (JValue.obj fields) :=
        Nat.lt_of_lt_of_le (by simpa using List.sizeOf_lt_of_mem p.2) (by simp)

/-- The environment a run of the script observes: whether the cache file
exists, its modification time and the current time (`os.stat st_mtime` and
`datetime.now`, in seconds), the cache file contents, which strings
`json.loads` accepts, and the text an HTTP GET of the registry URL would
return. -/
structure CacheEnv where
  cacheExists : Bool
  cacheMTime : ℚ
  now : ℚ
  cacheContent : String
  parseOk : String → Bool
  responseText : String

/-- `dt.timedelta(days=7)` in seconds. -/
def sevenDays : ℚ := 7 * 86400

/-- The cache-reading phase (lines 136-146): `facility_data` is the cache
contents when the file exists, is strictly younger than 7 days, and its
contents parse as JSON; otherwise `facility_data` stays `None`. -/
def cachedData (env : CacheEnv) : Option String :=
  if env.cacheExists then
    if env.now - env.cacheMTime < sevenDays then
      if env.parseOk env.cacheContent then some env.cacheContent else none
    else none
  else none

/-- The test `if not facility_data:` (line 149): true for `None` and for
the empty string, the only falsy string. -/
def needsFetch (env : CacheEnv) : Bool :=
  match cachedData env with
  | none => true
  | some s => s = ""

/-- A network request issued by the script. -/
inductive HttpEvent where
  | get (url : String)
deriving DecidableEq

/-- Every network request of a run: the script touches the network only in
the `requests.get` fallback at line 150. -/
def httpEvents (env : CacheEnv) : List HttpEvent :=
  if needsFetch env then [HttpEvent.get facilityRegistryURL] else []

/-- The registry text the run goes on to parse (line 156). -/
def facilityText (env : CacheEnv) : String :=
  if needsFetch env then env.responseText else env.cacheContent

/-- What the run writes back to the cache file (line 154), when it does. -/
def cacheWritten (env : CacheEnv) : Option String :=
  if needsFetch env then some env.responseText else none

/-- What one DUID entry contributes to the total of fuel type `f`, stated
the way the specification reads: nothing without a fuel tech, nothing for
`battery_charging` or `pumps`, otherwise its registered capacity exactly
when its fuel tech normalizes to `f`. -/
def contribution (f : String) (e : String × GenInfo) : ℚ :=
  match e.2.fuel_tech with
  | none => 0
  | some g =>
      if g = "battery_charging" ∨ g = "pumps" then 0
      else if claimNormalize g = f then (e.2.registered_capacity).getD 0 else 0

/-- The total contribution of a `duid_data` list to fuel type `f`. -/
def contribSum (f : String) (entries : List (String × GenInfo)) : ℚ :=
  (entries.map (contribution f)).sum

/-- The dictionary keys of a zone map together with the `zone` field stored
in each zone object. -/
def zoneNamesOf (zm : ZMap) : List (String × String) :=
  zm.map (fun p => (p.1, p.2.zone))

/-- A sample solar generating unit. -/
def sampleGen : GenInfo := ⟨some "solar", some 100⟩

/-- A sample commissioned facility in NSW1 at latitude -30, longitude 150. -/
def sampleFacility : Facility :=
  ⟨some "ST1", some "Commissioned", some "NSW1",
   some [("D1", sampleGen)], (some (-30), some 150)⟩

/-- A one-facility registry used as concrete input. -/
def oneFacilityRegistry : List (String × Facility) := [("F1", sampleFacility)]

/-- The value under "bounding_box" in the "AUS-NSW" entry of the output the
script prints for `oneFacilityRegistry`. -/
def oneFacilityNswBBoxField : Option JValue :=
  match processAll initZones oneFacilityRegistry with
  | Except.error _ => none
  | Except.ok zm =>
      (jsonZones zm).bind (fun l =>
        (alookup l "AUS-NSW").bind (fun v =>
          match v with
          | JValue.obj o => alookup o "bounding_box"
          | _ => none))

/-- The static NSW1 bounding box. -/
def nswBB : List (List ℚ) := [[148.2695, -36.4196], [149.9044, -34.6395]]

/-- A DUID entry with no `fuel_tech` key. -/
def noFuelGen : GenInfo := ⟨none, none⟩

/-- A commissioned facility whose record lacks the `duid_data` key. -/
def missingDuidFacility : Facility :=
  ⟨some "ST2", some "Commissioned", some "NSW1", none, (none, none)⟩

/-- A fresh zone object for NSW1. -/
def z0 : OpenNEMZone := OpenNEMZone.init "NSW1"

/-- The dict `output` builds for a fresh NSW1 zone. -/
def o0 : List (String × JValue) :=
  pyUpdate [("bounding_box", jbbStatic nswBB), ("capacity", capacityJson [])]
    ZONE_BOILERPLATE

/-- A sample environment with a fresh, parseable, nonempty cache file. -/
def env0 : CacheEnv :=
  ⟨true, 0, 86400, "cached registry text", fun s => decide (s ≠ ""), "fetched registry text"⟩

/-- The sequential rewriting of `update_capacity` agrees with the disjoint
case analysis of the specification. -/
theorem normalizeFuel_eq_claimNormalize (g : String) :
    normalizeFuel g = claimNormalize g := by
  by_cases h1 : pyStartswith g "gas_"
  · have e1 : pyStartswith "gas" "bioenergy_" = false := by decide
    simp [normalizeFuel, claimNormalize, h1, e1]
  · by_cases h2 : g = "battery_discharging"
    · subst h2; decide
    · by_cases h3 : pyStartswith g "bioenergy_"
      · simp [normalizeFuel, claimNormalize, h1, h2, h3]
      · by_cases h4 : g = "distillate"
        · subst h4; decide
        · simp [normalizeFuel, claimNormalize, h1, h2, h3, h4]

/-- Effect of one `defaultdict` accumulation on a later read. -/
theorem capLookup_addCap (m : CapMap) (k f : String) (v : ℚ) :
    capLookup (addCap m k v) f = if f = k then capLookup m f + v else capLookup m f := by
  induction m with
  | nil =>
      by_cases h : k = f
      · subst h; simp [addCap, capLookup, alookup]
      · simp [addCap, capLookup, alookup, h, Ne.symm h]
  | cons hd tl ih =>
      obtain ⟨k0, v0⟩ := hd
      by_cases h1 : k0 = k
      · subst h1
        by_cases h2 : k0 = f
        · subst h2; simp [addCap, capLookup, alookup]
        · simp [addCap, capLookup, alookup, h2, Ne.symm h2]
      · by_cases h2 : k0 = f
        · subst h2
          simp [addCap, capLookup, alookup, h1, Ne.symm h1]
        · simpa [addCap, capLookup, alookup, h1, h2] using ih

/-- C1: for every DUID entry processed by `update_capacity`, the fuel type
credited in the zone capacity totals is the normalized one — names starting
with "gas_" count as "gas", names starting with "bioenergy_" as "biomass",
"distillate" as "oil", "battery_discharging" as "battery storage",
"battery_charging" and "pumps" entries contribute nothing, and every other
fuel tech counts under its own name: after a successful `update_capacity`
run, the total of each fuel type has grown by exactly the sum of the
registered capacities of the entries normalizing to it. -/
theorem update_capacity_normalizes (entries : List (String × GenInfo))
    (m m' : CapMap) (h : updateCapacity m entries = Except.ok m') (f : String) :
    capLookup m' f = capLookup m f + contribSum f entries := by
  induction entries generalizing m with
  | nil =>
      simp only [updateCapacity, Except.ok.injEq] at h
      subst h
      simp [contribSum]
  | cons e rest ih =>
      obtain ⟨c, info⟩ := e
      cases hft : info.fuel_tech with
      | none =>
          simp only [updateCapacity, hft] at h
          rw [ih m h]
          simp [contribSum, contribution, hft]
      | some g =>
          by_cases hskip : g = "battery_charging" ∨ g = "pumps"
          · simp only [updateCapacity, hft, if_pos hskip] at h
            rw [ih m h]
            simp [contribSum, contribution, hft, hskip]
          · cases hrc : info.registered_capacity with
            | none =>
                simp only [updateCapacity, hft, if_neg hskip, hrc] at h
                exact Except.noConfusion h
            | some q =>
                simp only [updateCapacity, hft, if_neg hskip, hrc] at h
                rw [ih _ h, capLookup_addCap]
                rw [normalizeFuel_eq_claimNormalize]
                simp only [contribSum, contribution, hft, List.map_cons, List.sum_cons,
                  if_neg hskip, hrc]
                by_cases hf : f = claimNormalize g
                · rw [if_pos hf, if_pos hf.symm]
                  simp [contribSum]
                  ring
                · rw [if_neg hf, if_neg (Ne.symm hf)]
                  simp [contribSum]

/-- Witness for C1 at a concrete one-entry registry. -/
theorem update_capacity_normalizes_witness :
    capLookup [("solar", 100)] "solar" = capLookup [] "solar" + contribSum "solar" [("D1", sampleGen)] :=
  update_capacity_normalizes [("D1", sampleGen)] [] [("solar", 100)] rfl "solar"

/-- C2: a facility whose record reads cleanly adds its DUID capacities to
the zone of its region exactly when its status state is "Commissioned"; any
other status leaves every zone unchanged. -/
theorem commissioned_facilities_only (zones : ZMap) (f : Facility)
    (dd : List (String × GenInfo)) (st r sid : String) (z : OpenNEMZone) (c : CapMap)
    (hdd : f.duid_data = some dd) (hst : f.status_state = some st)
    (hr : f.region_id = some r) (hsid : f.station_id = some sid)
    (hz : alookup zones r = some z) (hup : updateCapacity z.capacity dd = Except.ok c) :
    processFacility zones f =
      Except.ok (if st = "Commissioned"
        then zupdate zones r { z with capacity := c } else zones) := by
  by_cases hcomm : st = "Commissioned"
  · simp [processFacility, hdd, hst, hcomm, hr, hz, hsid, hup]
  · simp [processFacility, hdd, hst, hcomm, hr]

/-- Witness for C2 at a concrete commissioned facility. -/
theorem commissioned_facilities_only_witness :
    processFacility initZones sampleFacility =
      Except.ok (if "Commissioned" = "Commissioned"
        then zupdate initZones "NSW1"
          { OpenNEMZone.init "NSW1" with capacity := [("solar", 100)] }
        else initZones) :=
  commissioned_facilities_only initZones sampleFacility [("D1", sampleGen)]
    "Commissioned" "NSW1" "ST1" (OpenNEMZone.init "NSW1") [("solar", 100)]
    rfl rfl rfl rfl rfl rfl

/-- C7: a facility record lacking `duid_data`, `status`/`state` or
`region_id` makes the run fail with a `KeyError` instead of being skipped
or defaulted. -/
theorem missing_key_raises (zones : ZMap) (f : Facility)
    (h : f.duid_data = none ∨ f.status_state = none ∨ f.region_id = none) :
    ∃ msg, processFacility zones f = Except.error msg ∧
      pyStartswith msg "KeyError" = true := by
  cases hdd : f.duid_data with
  | none => exact ⟨"KeyError: duid_data", by simp [processFacility, hdd], by decide⟩
  | some dd =>
    cases hst : f.status_state with
    | none => exact ⟨"KeyError: status.state", by simp [processFacility, hdd, hst], by decide⟩
    | some st =>
      have hr : f.region_id = none := by
        rcases h with h | h | h
        · rw [hdd] at h; exact Option.noConfusion h
        · rw [hst] at h; exact Option.noConfusion h
        · exact h
      refine ⟨"KeyError: region_id", ?_, by decide⟩
      simp only [processFacility, hdd, hst, hr]
      split <;> rfl

/-- Witness for C7 at a facility with no `duid_data` key. -/
theorem missing_key_raises_witness :
    ∃ msg, processFacility initZones missingDuidFacility = Except.error msg ∧
      pyStartswith msg "KeyError" = true :=
  missing_key_raises initZones missingDuidFacility (Or.inl rfl)

/-- C8: a DUID entry with no `fuel_tech` key (or a null one) is skipped
silently by `update_capacity` — no error, no contribution, and the
remaining entries of the facility are still processed. -/
theorem missing_fuel_tech_skipped (m : CapMap) (code : String) (info : GenInfo)
    (rest : List (String × GenInfo)) (h : info.fuel_tech = none) :
    updateCapacity m ((code, info) :: rest) = updateCapacity m rest := by
  simp only [updateCapacity, h]

/-- Witness for C8: a fuel-tech-less entry ahead of a solar entry. -/
theorem missing_fuel_tech_skipped_witness :
    updateCapacity [] [("D0", noFuelGen), ("D1", sampleGen)] =
      updateCapacity [] [("D1", sampleGen)] :=
  missing_fuel_tech_skipped [] "D0" noFuelGen [("D1", sampleGen)] rfl

/-- C5: the registry is fetched over HTTP exactly when no fresh valid cache
exists — the cache file must exist, be strictly younger than 7 days by
modification time, and its contents must parse as JSON (an empty string
never parses, hence the hypothesis); on a cache hit the cached contents are
used, no request is made and nothing is written back; otherwise the single
GET happens and its response text is written to the cache file and used. -/
theorem cache_policy (env : CacheEnv) (hempty : env.parseOk "" = false) :
    (needsFetch env = true ↔
        ¬(env.cacheExists = true ∧ env.now - env.cacheMTime < sevenDays ∧
            env.parseOk env.cacheContent = true))
    ∧ (needsFetch env = false →
        facilityText env = env.cacheContent ∧ httpEvents env = [] ∧
          cacheWritten env = none)
    ∧ (needsFetch env = true →
        httpEvents env = [HttpEvent.get facilityRegistryURL] ∧
          cacheWritten env = some env.responseText ∧
          facilityText env = env.responseText) := by
  refine ⟨⟨?_, ?_⟩, ?_, ?_⟩
  · intro hfetch hvalid
    obtain ⟨he, hfresh, hparse⟩ := hvalid
    simp only [needsFetch, cachedData, he, if_true, hfresh, hparse] at hfetch
    simp only [decide_eq_true_eq] at hfetch
    rw [hfetch] at hparse
    rw [hempty] at hparse
    exact Bool.noConfusion hparse
  · intro hvalid
    by_cases he : env.cacheExists
    · by_cases hfresh : env.now - env.cacheMTime < sevenDays
      · by_cases hparse : env.parseOk env.cacheContent
        · exact absurd ⟨he, hfresh, hparse⟩ hvalid
        · simp [needsFetch, cachedData, he, hfresh, hparse]
      · simp [needsFetch, cachedData, he, hfresh]
    · simp [needsFetch, cachedData, he]
  · intro hno
    simp [facilityText, httpEvents, cacheWritten, hno]
  · intro hyes
    simp [facilityText, httpEvents, cacheWritten, hyes]

/-- Witness for C5 at a concrete environment with a fresh valid cache. -/
theorem cache_policy_witness :
    ((needsFetch env0 = true ↔
        ¬(env0.cacheExists = true ∧ env0.now - env0.cacheMTime < sevenDays ∧
            env0.parseOk env0.cacheContent = true))
      ∧ (needsFetch env0 = false →
          facilityText env0 = env0.cacheContent ∧ httpEvents env0 = [] ∧
            cacheWritten env0 = none)
      ∧ (needsFetch env0 = true →
          httpEvents env0 = [HttpEvent.get facilityRegistryURL] ∧
            cacheWritten env0 = some env0.responseText ∧
            facilityText env0 = env0.responseText)) :=
  cache_policy env0 (by decide)

/-- C6: a run issues at most one network request, and any request it does
issue is the GET of the fixed facility registry URL — there is never a
second or different request. -/
theorem single_fixed_request (env : CacheEnv) :
    httpEvents env = [] ∨ httpEvents env = [HttpEvent.get facilityRegistryURL] := by
  by_cases h : needsFetch env
  · right; simp [httpEvents, h]
  · left; simp [httpEvents, h]

/-- C10: the dict `output` returns has exactly the six keys `bounding_box`,
`capacity`, `contributors`, `flag_file_name`, `parsers`, `timezone`;
merging the boilerplate leaves the already-placed `bounding_box` and
`capacity` values untouched, and `timezone` is always null. -/
theorem output_exact_keys (z : OpenNEMZone) (bb : List (List ℚ))
    (h : sbbLookup z.zone = some bb) (o : List (String × JValue))
    (ho : OpenNEMZone.output z = some o) :
    o.map (fun p => p.1) =
        ["bounding_box", "capacity", "contributors", "flag_file_name", "parsers", "timezone"]
      ∧ alookup o "bounding_box" = some (jbbStatic bb)
      ∧ alookup o "capacity" = some (capacityJson z.capacity)
      ∧ alookup o "timezone" = some JValue.null := by
  rw [OpenNEMZone.output, h] at ho
  have ho' :
      pyUpdate [("bounding_box", jbbStatic bb), ("capacity", capacityJson z.capacity)]
        ZONE_BOILERPLATE = o := by
    simpa using ho
  subst ho'
  exact ⟨rfl, rfl, rfl, rfl⟩

/-- Witness for C10 at a fresh NSW1 zone. -/
theorem output_exact_keys_witness :
    o0.map (fun p => p.1) =
        ["bounding_box", "capacity", "contributors", "flag_file_name", "parsers", "timezone"]
      ∧ alookup o0 "bounding_box" = some (jbbStatic nswBB)
      ∧ alookup o0 "capacity" = some (capacityJson z0.capacity)
      ∧ alookup o0 "timezone" = some JValue.null :=
  output_exact_keys z0 nswBB rfl o0 rfl

/-- A pairwise-ordered key list passes the adjacent check. -/
theorem chainLeB_of_pairwise (l : List String) (h : l.Pairwise (fun a b => a ≤ b)) :
    chainLeB l = true := by
  induction l with
  | nil => rfl
  | cons a t ih =>
      cases t with
      | nil => rfl
      | cons b t2 =>
          rw [List.pairwise_cons] at h
          simp only [chainLeB, Bool.and_eq_true, decide_eq_true_eq]
          exact ⟨h.1 b (by simp), ih h.2⟩

/-- After the `sort_keys` transformation every object of the tree has its
keys in nondecreasing order. -/
theorem keysSortedB_sortKeys (v : JValue) : keysSortedB (sortKeys v) = true := by
  have main : ∀ n : Nat, ∀ w : JValue, sizeOf w ≤ n → keysSortedB (sortKeys w) = true := by
    intro n
    induction n with
    | zero =>
        intro w hw
        exfalso
        cases w <;> simp_all
    | succ n ih =>
        intro w hw
        cases w with
        | null => simp [sortKeys, keysSortedB]
        | str s => simp [sortKeys, keysSortedB]
        | num q => simp [sortKeys, keysSortedB]
        | arr items =>
            have hsz : sizeOf (JValue.arr items) = 1 + sizeOf items := by simp
            simp only [sortKeys, keysSortedB, List.all_eq_true]
            intro x hx
            obtain ⟨a, ha⟩ := x
            obtain ⟨y, hy, rfl⟩ := List.mem_map.mp ha
            apply ih
            have h1 : sizeOf y.1 < sizeOf items := List.sizeOf_lt_of_mem y.2
            omega
        | obj fields =>
            have hsz : sizeOf (JValue.obj fields) = 1 + sizeOf fields := by simp
            simp only [sortKeys, keysSortedB, Bool.and_eq_true, List.all_eq_true]
            constructor
            · apply chainLeB_of_pairwise
              have hs := @List.sorted_mergeSort (String × JValue)
                (fun a b => decide (a.1 ≤ b.1))
                (fun a b c h1 h2 => by
                  simp only [decide_eq_true_eq] at *
                  exact le_trans h1 h2)
                (fun a b => by
                  simp only [Bool.or_eq_true, decide_eq_true_eq]
                  exact le_total a.1 b.1)
                (fields.attach.map (fun p => (p.1.1, sortKeys p.1.2)))
              exact List.Pairwise.map Prod.fst (fun a b hab => by simpa using hab)
                (by simpa using hs)
            · intro x hx
              obtain ⟨a, ha⟩ := x
              have ha' : a ∈ fields.attach.map (fun p => (p.1.1, sortKeys p.1.2)) :=
                List.mem_mergeSort.mp ha
              obtain ⟨y, hy, rfl⟩ := List.mem_map.mp ha'
              apply ih
              have h1 : sizeOf y.1 < sizeOf fields := List.sizeOf_lt_of_mem y.2
              have h2 : sizeOf y.1.2 < sizeOf y.1 := by
                obtain ⟨⟨a1, a2⟩, hmem⟩ := y
                simp
              omega
  exact main (sizeOf v) v le_rfl

/-- C4 (amended): the printed output entry of a zone merges the static
per-zone bounding box from `STATE_BOUNDING_BOXES` and the computed capacity
totals with the boilerplate metadata, without disturbing the two computed
fields; the entry is keyed under the inverse zone-code mapping; and the
final JSON text is the rendering of the key-sorted tree, in which every
object has sorted keys. -/
theorem output_static_merge_and_sorted :
    (∀ (z : OpenNEMZone) (bb : List (List ℚ)), sbbLookup z.zone = some bb →
        OpenNEMZone.output z =
          some ([("bounding_box", jbbStatic bb), ("capacity", capacityJson z.capacity)] ++
            ZONE_BOILERPLATE))
    ∧ (∀ a b : String, zoneMapLookup a = some b ↔
        alookup PRICE_MAPPING_DICTIONARY b = some a)
    ∧ (∀ w : JValue, keysSortedB (sortKeys w) = true)
    ∧ (∀ (zm : ZMap) (l : List (String × JValue)), jsonZones zm = some l →
        finalJson zm = some (sortKeys (JValue.obj l))) := by
  refine ⟨?_, ?_, keysSortedB_sortKeys, ?_⟩
  · intro z bb h
    rw [OpenNEMZone.output, h]
    rfl
  · intro a b
    constructor
    · intro h
      simp only [zoneMapLookup, zone_map, PRICE_MAPPING_DICTIONARY, List.map, alookup] at h ⊢
      split_ifs at h <;>
        first
          | exact Option.noConfusion h
          | (cases h; simp_all)
    · intro h
      simp only [zoneMapLookup, zone_map, PRICE_MAPPING_DICTIONARY, List.map, alookup] at h ⊢
      split_ifs at h <;>
        first
          | exact Option.noConfusion h
          | (cases h; simp_all)
  · intro zm l h
    simp [finalJson, h]

/-- Witness for the amended C4, at a fresh NSW1 zone and concrete data. -/
theorem output_static_merge_and_sorted_witness :
    OpenNEMZone.output z0 =
        some ([("bounding_box", jbbStatic nswBB), ("capacity", capacityJson z0.capacity)] ++
          ZONE_BOILERPLATE)
      ∧ (zoneMapLookup "NSW1" = some "AUS-NSW" ↔
          alookup PRICE_MAPPING_DICTIONARY "AUS-NSW" = some "NSW1")
      ∧ keysSortedB (sortKeys (JValue.obj [("b", JValue.null), ("a", JValue.null)])) = true
      ∧ finalJson [] = some (sortKeys (JValue.obj [])) :=
  ⟨output_static_merge_and_sorted.1 z0 nswBB rfl,
   output_static_merge_and_sorted.2.1 "NSW1" "AUS-NSW",
   output_static_merge_and_sorted.2.2.1 (JValue.obj [("b", JValue.null), ("a", JValue.null)]),
   output_static_merge_and_sorted.2.2.2 [] [] rfl⟩

/-- Counterexample to C4 as stated: in the run over `oneFacilityRegistry`
the bounding box printed for AUS-NSW is the static `STATE_BOUNDING_BOXES`
entry, which differs from the bounding box `update_bounds` would compute
from the facility data of the zone — the computed box is never used, since
the call to `update_bounds` is commented out. -/
theorem bounding_box_not_computed_counterexample :
    oneFacilityNswBBoxField = some (jbbStatic nswBB)
    ∧ jbbStatic nswBB ≠ jbbComputed (computedZoneBBox oneFacilityRegistry "NSW1") := by
  constructor
  · rfl
  · have hc : computedZoneBBox oneFacilityRegistry "NSW1" =
        ⟨some 150, some (-30), some 150, some (-30)⟩ := rfl
    rw [hc]
    intro h
    simp only [jbbStatic, jbbComputed, joptNum, nswBB, List.map, JValue.arr.injEq,
      List.cons.injEq, JValue.num.injEq, and_true] at h
    have h1 := h.1.1
    norm_num at h1

/-- Replacing the object stored at a key does not change the key list nor
the `zone` fields, when the new object keeps the zone name. -/
theorem zoneNamesOf_zupdate (zm : ZMap) (r : String) (z z' : OpenNEMZone)
    (hz : alookup zm r = some z) (hzone : z'.zone = z.zone) :
    zoneNamesOf (zupdate zm r z') = zoneNamesOf zm := by
  induction zm with
  | nil => simp [zupdate]
  | cons hd tl ih =>
      obtain ⟨k0, w⟩ := hd
      by_cases h : k0 = r
      · subst h
        have hw : w = z := by simpa [alookup] using hz
        subst hw
        simp [zupdate, zoneNamesOf, hzone]
      · simp only [alookup, if_neg h] at hz
        simp only [zupdate, if_neg h, zoneNamesOf, List.map_cons, List.cons.injEq, true_and]
        exact ih hz

/-- Processing one facility never changes the dictionary keys of `zones`
nor the `zone` field of any zone object. -/
theorem zoneNamesOf_processFacility (zm : ZMap) (f : Facility) (zm' : ZMap)
    (h : processFacility zm f = Except.ok zm') :
    zoneNamesOf zm' = zoneNamesOf zm := by
  cases hdd : f.duid_data with
  | none => simp [processFacility, hdd] at h
  | some dd =>
    cases hst : f.status_state with
    | none => simp [processFacility, hdd, hst] at h
    | some st =>
      by_cases hc : st = "Commissioned"
      · subst hc
        cases hr : f.region_id with
        | none => simp [processFacility, hdd, hst, hr] at h
        | some r =>
          cases hz : alookup zm r with
          | none => simp [processFacility, hdd, hst, hr, hz] at h
          | some z =>
            cases hsid : f.station_id with
            | none => simp [processFacility, hdd, hst, hr, hz, hsid] at h
            | some sid =>
              cases hup : updateCapacity z.capacity dd with
              | error e => simp [processFacility, hdd, hst, hr, hz, hsid, hup] at h
              | ok c =>
                  simp only [processFacility, hdd, hst, hr, hz, hsid, hup] at h
                  simp at h
                  subst h
                  exact zoneNamesOf_zupdate zm r z _ hz rfl
      · cases hr : f.region_id with
        | none => simp [processFacility, hdd, hst, hc, hr] at h
        | some r =>
            simp [processFacility, hdd, hst, hc, hr] at h
            subst h
            rfl

/-- The whole main loop never changes the dictionary keys of `zones` nor
the `zone` field of any zone object. -/
theorem zoneNamesOf_processAll (facs : List (String × Facility)) (zm zm' : ZMap)
    (h : processAll zm facs = Except.ok zm') :
    zoneNamesOf zm' = zoneNamesOf zm := by
  induction facs generalizing zm with
  | nil =>
      simp only [processAll, Except.ok.injEq] at h
      subst h
      rfl
  | cons e rest ih =>
      obtain ⟨code, f⟩ := e
      cases hp : processFacility zm f with
      | error e2 => simp [processAll, hp] at h
      | ok zm2 =>
          simp only [processAll, hp] at h
          exact (ih zm2 h).trans (zoneNamesOf_processFacility zm f zm2 hp)

/-- A key absent from every entry is not found. -/
theorem alookup_eq_none_of_forall {α : Type} (l : List (String × α)) (key : String)
    (h : ∀ p ∈ l, p.1 ≠ key) : alookup l key = none := by
  induction l with
  | nil => rfl
  | cons hd tl ih =>
      simp only [alookup, if_neg (h hd (by simp))]
      exact ih (fun p hp => h p (by simp [hp]))

/-- Any zone map that still carries the initial names yields output entries
keyed exactly by the six inverse zone codes. -/
theorem jsonZones_initKeys (zm : ZMap)
    (h : zoneNamesOf zm = zoneNamesOf initZones) :
    ∃ l, jsonZones zm = some l ∧
      l.map (fun p => p.1) =
        ["AUS-NSW", "AUS-QLD", "AUS-SA", "AUS-TAS", "AUS-VIC", "AUS-WA"] := by
  rcases zm with _ | ⟨p1, _ | ⟨p2, _ | ⟨p3, _ | ⟨p4, _ | ⟨p5, _ | ⟨p6, rest⟩⟩⟩⟩⟩⟩ <;>
    simp [zoneNamesOf, initZones, OpenNEMZone.init, zone_map, PRICE_MAPPING_DICTIONARY] at h
  obtain ⟨⟨h1a, h1b⟩, ⟨h2a, h2b⟩, ⟨h3a, h3b⟩, ⟨h4a, h4b⟩, ⟨h5a, h5b⟩, ⟨h6a, h6b⟩, hrest⟩ := h
  subst hrest
  simp [jsonZones, zoneMapLookup, OpenNEMZone.output, sbbLookup, h1b, h2b, h3b, h4b, h5b, h6b,
    zone_map, PRICE_MAPPING_DICTIONARY, STATE_BOUNDING_BOXES, alookup]

/-- An initial run surviving a list extension on the right. -/
theorem listHasStart_append (xs ys ps : List Char) (h : listHasStart xs ps = true) :
    listHasStart (xs ++ ys) ps = true := by
  induction ps generalizing xs with
  | nil => simp [listHasStart]
  | cons p pt ih =>
      cases xs with
      | nil => exact Bool.noConfusion h
      | cons x xt =>
          simp only [List.cons_append, listHasStart, Bool.and_eq_true] at h ⊢
          exact ⟨h.1, ih xt h.2⟩

/-- C9: only the six region codes NSW1, QLD1, SA1, TAS1, VIC1, WA1 ever
appear in the output, under their inverse AUS-* codes; a commissioned
facility whose region is any other value — including NT1, which even has an
entry in the static bounding-box table — makes the run fail with a
`KeyError` on the `zones` dictionary instead of being aggregated or
skipped. -/
theorem six_zone_codes_only :
    (∀ (facs : List (String × Facility)) (zm : ZMap),
        processAll initZones facs = Except.ok zm →
        ∃ l, jsonZones zm = some l ∧
          l.map (fun p => p.1) =
            ["AUS-NSW", "AUS-QLD", "AUS-SA", "AUS-TAS", "AUS-VIC", "AUS-WA"])
    ∧ (∀ (zm : ZMap) (f : Facility) (dd : List (String × GenInfo)) (r : String),
        zoneNamesOf zm = zoneNamesOf initZones →
        f.duid_data = some dd → f.status_state = some "Commissioned" →
        f.region_id = some r →
        r ∉ ["NSW1", "QLD1", "SA1", "TAS1", "VIC1", "WA1"] →
        ∃ msg, processFacility zm f = Except.error msg ∧
          pyStartswith msg "KeyError" = true)
    ∧ sbbLookup "NT1" = some [[128.5001, -26.4999], [138.5002, -10.4684]] := by
  refine ⟨?_, ?_, rfl⟩
  · intro facs zm h
    exact jsonZones_initKeys zm (zoneNamesOf_processAll facs initZones zm h)
  · intro zm f dd r hnames hdd hst hr hnot
    have hz : alookup zm r = none := by
      apply alookup_eq_none_of_forall
      intro p hp
      have hmem : (p.1, p.2.zone) ∈ zoneNamesOf zm := List.mem_map_of_mem _ hp
      rw [hnames] at hmem
      simp [zoneNamesOf, initZones, OpenNEMZone.init, zone_map,
        PRICE_MAPPING_DICTIONARY] at hmem
      rcases hmem with ⟨h1, _⟩ | ⟨h1, _⟩ | ⟨h1, _⟩ | ⟨h1, _⟩ | ⟨h1, _⟩ | ⟨h1, _⟩ <;>
        (intro heq; apply hnot; rw [← heq, h1]; simp)
    refine ⟨"KeyError: zones[" ++ r ++ "]", ?_, ?_⟩
    · simp [processFacility, hdd, hst, hr, hz]
    · show listHasStart (("KeyError: zones[" ++ r ++ "]").data) ("KeyError".data) = true
      rw [String.data_append, String.data_append, List.append_assoc]
      exact listHasStart_append _ _ _ (by decide)

/-- Witness for C9: the empty run, and a concrete commissioned NT1
facility rejected against the initial zones. -/
theorem six_zone_codes_only_witness :
    (∃ l, jsonZones initZones = some l ∧
        l.map (fun p => p.1) =
          ["AUS-NSW", "AUS-QLD", "AUS-SA", "AUS-TAS", "AUS-VIC", "AUS-WA"])
    ∧ (∃ msg, processFacility initZones
          ⟨some "ST3", some "Commissioned", some "NT1", some [], (none, none)⟩ =
            Except.error msg ∧ pyStartswith msg "KeyError" = true) :=
  ⟨six_zone_codes_only.1 [] initZones rfl,
   six_zone_codes_only.2.1 initZones
     ⟨some "ST3", some "Commissioned", some "NT1", some [], (none, none)⟩ [] "NT1"
     rfl rfl rfl rfl (by decide)⟩
